import Mathlib

/-!
Shallow embedding of the retrieval-augmented question-answering pipeline
(`app/services/document_processor.py`, `embedding_service.py`,
`vector_db_service.py`, `llm_service.py`, `retrieval_service.py`).

Python strings are modelled as Lean `String`; word-level work inside the
chunker uses `List Char`.  Machine floats (similarity scores, embedding
components, timestamps) are modelled as exact rationals `ℚ`.  Fallible
library/network calls (HTTP download, PDF/DOCX extraction, the sentence
transformer `encode`, the Qdrant client, the chat-completion POST) are
passed in as `Except`-valued parameters; a Python `raise` is `.error` and
the message-wrapping `except` blocks of the source are reproduced verbatim.
-/

set_option autoImplicit false

namespace RagSpec

/-! ### Python text primitives -/

theorem length_dropWhile_le' {α : Type} (p : α → Bool) (l : List α) :
    (l.dropWhile p).length ≤ l.length := by
  induction l with
  | nil => simp [List.dropWhile]
  | cons a l ih =>
    simp only [List.dropWhile]
    cases p a
    · simp
    · simp
      omega

/-- Fuel-indexed worker for Python `text.split()`: split on runs of
whitespace, never producing empty tokens.  The fuel only serves structural
termination; it is irrelevant as soon as it dominates the list length
(`pySplitF_fuel`). -/
def pySplitF : Nat → List Char → List (List Char)
  | _, [] => []
  | 0, _ :: _ => []
  | f + 1, c :: cs =>
    if c.isWhitespace then pySplitF f cs
    else (c :: cs.takeWhile (fun d => !d.isWhitespace)) ::
      pySplitF f (cs.dropWhile (fun d => !d.isWhitespace))

/-- Python `text.split()` (no separator argument). -/
def pySplit (l : List Char) : List (List Char) := pySplitF l.length l

theorem pySplitF_fuel (f : Nat) :
    ∀ l : List Char, l.length ≤ f → pySplitF f l = pySplit l := by
  induction f using Nat.strong_induction_on with
  | _ f ih =>
    intro l hl
    cases l with
    | nil => cases f with
      | zero => rfl
      | succ f => rfl
    | cons c cs =>
      cases f with
      | zero => simp at hl
      | succ f =>
        show pySplitF (f + 1) (c :: cs) = pySplitF (cs.length + 1) (c :: cs)
        rw [pySplitF, pySplitF]
        by_cases hc : c.isWhitespace
        · rw [if_pos hc, if_pos hc]
          have h1 : cs.length ≤ f := by simpa using hl
          rw [ih f (Nat.lt_succ_self f) cs h1]
          rfl
        · rw [if_neg hc, if_neg hc]
          have hd : (cs.dropWhile fun d => !d.isWhitespace).length ≤ cs.length :=
            length_dropWhile_le' _ _
          have h1 : cs.length ≤ f := by simpa using hl
          rw [ih f (Nat.lt_succ_self f) _ (hd.trans h1),
            ih cs.length (by omega) _ hd]

theorem pySplit_nil : pySplit [] = [] := rfl

/-- The defining unfolding of `pySplit` on a non-empty list. -/
theorem pySplit_cons (c : Char) (cs : List Char) :
    pySplit (c :: cs) =
      if c.isWhitespace then pySplit cs
      else (c :: cs.takeWhile (fun d => !d.isWhitespace)) ::
        pySplit (cs.dropWhile (fun d => !d.isWhitespace)) := by
  show pySplitF (cs.length + 1) (c :: cs) = _
  rw [pySplitF]
  by_cases hc : c.isWhitespace
  · rw [if_pos hc, if_pos hc]
    rfl
  · rw [if_neg hc, if_neg hc]
    rw [pySplitF_fuel cs.length _ (length_dropWhile_le' _ _)]

/-- Python `str.strip()` with no argument: remove leading and trailing
whitespace. -/
def pyStrip (l : List Char) : List Char :=
  (((l.dropWhile Char.isWhitespace).reverse.dropWhile Char.isWhitespace)).reverse

/-- Python `" ".join(words)`. -/
def joinSpace (ws : List (List Char)) : List Char :=
  List.intercalate [' '] ws

/-- The index list produced by Python `range(0, len, step)` for an integer
`step`: counts up from `0` while `< len` when `step > 0`, and is empty when
`step < 0` (the caller separately treats `step = 0`, where Python `range`
itself raises `ValueError`). -/
def pyRangeIdx (len : Nat) (step : Int) : List Nat :=
  if 0 < step then
    (List.range ((len + step.toNat - 1) / step.toNat)).map (· * step.toNat)
  else []

/-! ### Data model (`app/models/schemas.py`) -/

/-- The base metadata dict built in `DocumentProcessor.process_document`
before chunking. -/
structure BaseMetadata where
  source_url : String
  document_type : String
  character_count : Nat
  processing_timestamp : ℚ
deriving DecidableEq

/-- The per-chunk metadata dict built in `DocumentProcessor.chunk_text`:
the base metadata merged with the four chunk-position keys. -/
structure ChunkMetadata where
  base : BaseMetadata
  chunk_index : Nat
  start_word : Nat
  end_word : Nat
  word_count : Nat
deriving DecidableEq

/-- A value stored in `DocumentChunk.embedding`.  Python is dynamically
typed: the attach loop in `process_and_store_document` zips chunks with
whatever `create_embeddings` returned, which is a flat vector of floats
when there was exactly one chunk (each chunk then receives a single float,
`scalar`) and a list of vectors otherwise (`vector`). -/
inductive EmbeddingVal where
  | scalar (x : ℚ)
  | vector (v : List ℚ)
deriving DecidableEq

/-- Pydantic model `DocumentChunk`. -/
structure DocumentChunk where
  id : String
  content : String
  metadata : ChunkMetadata
  embedding : Option EmbeddingVal := none
deriving DecidableEq

/-- Pydantic model `RetrievalResult`. -/
structure RetrievalResult where
  chunk : DocumentChunk
  score : ℚ
  relevance : String
deriving DecidableEq

/-! ### Chunker (`DocumentProcessor.chunk_text`) -/

/-- Model of `hashlib.md5(...).hexdigest()` on `chunk_text + str(i)`.  No claim
depends on any property of the digest, so MD5 is modelled as an injective
placeholder on its input string. -/
def md5_hexdigest (s : String) : String := s

/-- The chunk appended for loop variable `i` when `len(chunks) = pos`:
`chunk_words = words[i : i + chunk_size]` and
`chunk_text = " ".join(chunk_words)` are inlined. -/
def mk_chunk (chunk_size : Nat) (words : List (List Char))
    (metadata : BaseMetadata) (pos i : Nat) : DocumentChunk :=
  { id := md5_hexdigest
      (String.mk (joinSpace ((words.drop i).take chunk_size)) ++ toString i)
    content := String.mk (pyStrip (joinSpace ((words.drop i).take chunk_size)))
    metadata :=
      { base := metadata
        chunk_index := pos
        start_word := i
        end_word := min (i + chunk_size) words.length
        word_count := ((words.drop i).take chunk_size).length }
    embedding := none }

/-- The accumulation loop of `chunk_text`: `pos` is `len(chunks)` at the
time each chunk is appended. -/
def build_chunks (chunk_size : Nat) (words : List (List Char))
    (metadata : BaseMetadata) : List Nat → Nat → List DocumentChunk
  | [], _ => []
  | i :: rest, pos =>
    mk_chunk chunk_size words metadata pos i ::
      build_chunks chunk_size words metadata rest (pos + 1)

/-- Model of `DocumentProcessor.chunk_text`.  The loop header is
`for i in range(0, len(words), self.chunk_size - self.chunk_overlap)`;
a zero stride makes `range` itself raise `ValueError` (modelled as
`.error`), a negative stride makes the range empty, so the loop body never
runs. -/
def chunk_text (chunk_size chunk_overlap : Nat) (text : String)
    (metadata : BaseMetadata) : Except String (List DocumentChunk) :=
  let words := pySplit text.toList
  let step : Int := (chunk_size : Int) - (chunk_overlap : Int)
  if step = 0 then .error "range() arg 3 must not be zero"
  else .ok (build_chunks chunk_size words metadata (pyRangeIdx words.length step) 0)

/-! ### Embedding service (`EmbeddingService.create_embeddings`) -/

/-- The return value of `create_embeddings`: Python returns either a single
flat vector (`inl`, when the effective batch had exactly one text) or a
list of vectors (`inr`). -/
abbrev EmbedOut := Sum (List ℚ) (List (List ℚ))

/-- The `texts` list after the `isinstance(texts, str)` wrap at the top of
`create_embeddings`. -/
def effective_batch (texts : Sum String (List String)) : List String :=
  match texts with
  | .inl s => [s]
  | .inr l => l

/-- Model of `EmbeddingService.create_embeddings`.  `encode` stands for the
`SentenceTransformer.encode` library call (one vector per input text, may
fail); the surrounding `except` re-raises with the
`Failed to create embeddings:` prefix, which also covers the `IndexError`
from `embeddings[0]` should `encode` ever return an empty batch for a
one-text input. -/
def create_embeddings (encode : List String → Except String (List (List ℚ)))
    (texts : Sum String (List String)) : Except String EmbedOut :=
  match encode (effective_batch texts) with
  | .error e => .error ("Failed to create embeddings: " ++ e)
  | .ok embeddings =>
    if (effective_batch texts).length = 1 then
      match embeddings with
      | [] => .error "Failed to create embeddings: index 0 is out of bounds for axis 0 with size 0"
      | v :: _ => .ok (.inl v)
    else .ok (.inr embeddings)

/-! ### Vector store (`VectorDBService`) -/

/-- Model of `VectorDBService._get_relevance_label` (leading underscore dropped). -/
def get_relevance_label (score : ℚ) : String :=
  if score ≥ 0.8 then "high"
  else if score ≥ 0.6 then "medium"
  else "low"

/-- A Qdrant `PointStruct` as built in `store_chunks`. -/
structure PointStruct where
  id : String
  vector : EmbeddingVal
  payload_content : String
  payload_metadata : ChunkMetadata
deriving DecidableEq

/-- One pass of the `for chunk in chunks` loop in `store_chunks`: first
component is the `points` list handed to `upsert`, second the warning log
lines for skipped chunks. -/
def store_pass : List DocumentChunk → List PointStruct × List String
  | [] => ([], [])
  | c :: rest =>
    let acc := store_pass rest
    match c.embedding with
    | none => (acc.1, ("Chunk " ++ c.id ++ " has no embedding, skipping") :: acc.2)
    | some e =>
      ({ id := c.id, vector := e, payload_content := c.content,
         payload_metadata := c.metadata } :: acc.1, acc.2)

/-- Model of `VectorDBService.store_chunks`.  `create_collection` is the (network)
`self.create_collection()` call with its own message wrapping already
applied; `upsert` is the Qdrant client upsert, invoked only when `points`
is non-empty.  Any failure is re-raised with the
`Failed to store chunks:` prefix. -/
def store_chunks (create_collection : Except String Unit)
    (upsert : List PointStruct → Except String Unit)
    (chunks : List DocumentChunk) : Except String Unit :=
  match (do
      let _ ← create_collection
      let points := (store_pass chunks).1
      if points.isEmpty then pure () else upsert points :
      Except String Unit) with
  | .ok _ => .ok ()
  | .error e => .error ("Failed to store chunks: " ++ e)

/-- A Qdrant `ScoredPoint` as consumed by `search_similar_chunks`. -/
structure ScoredPoint where
  id : String
  score : ℚ
  payload_content : String
  payload_metadata : ChunkMetadata
deriving DecidableEq

/-- The `RetrievalResult` built from one search hit in
`search_similar_chunks` (embeddings are not returned, to save memory). -/
def scored_to_result (p : ScoredPoint) : RetrievalResult :=
  { chunk :=
      { id := p.id
        content := p.payload_content
        metadata := p.payload_metadata
        embedding := none }
    score := p.score
    relevance := get_relevance_label p.score }

/-- Model of `VectorDBService.search_similar_chunks`.  `client_search` is the Qdrant
`client.search` call (query vector, limit, score threshold); failures are
re-raised with the `Failed to search chunks:` prefix. -/
def search_similar_chunks
    (client_search : EmbedOut → Nat → ℚ → Except String (List ScoredPoint))
    (query_embedding : EmbedOut) (limit : Nat) (score_threshold : ℚ) :
    Except String (List RetrievalResult) :=
  match client_search query_embedding limit score_threshold with
  | .error e => .error ("Failed to search chunks: " ++ e)
  | .ok pts => .ok (pts.map scored_to_result)

/-! ### LLM service (`LLMService`) -/

/-- Python `str.strip()` on a Lean `String`. -/
def pyStripStr (s : String) : String := String.mk (pyStrip s.toList)

/-- Python `str.lower()`. -/
def pyLower (s : String) : String := String.mk (s.toList.map Char.toLower)

/-- Python `str.endswith(suffix)`. -/
def pyEndsWith (s suffix : String) : Bool :=
  s.toList.drop (s.toList.length - suffix.toList.length) == suffix.toList

/-- Stand-in for Python's `f"{score:.3f}"` decimal rendering: an exact
numerator/denominator print of the (rational-modelled) float.  No claim
depends on the rendered digits, only on the prompt being a deterministic
function of the retrieved chunks and the question. -/
def format3 (q : ℚ) : String := toString q.num ++ "/" ++ toString q.den

/-- Model of `LLMService._prepare_context` (leading underscore dropped): render the
top five retrieved chunks with their scores. -/
def prepare_context (context_chunks : List RetrievalResult) : String :=
  String.intercalate "\n" <|
    (context_chunks.take 5).mapIdx fun i result =>
      "\nContext " ++ toString (i + 1) ++ " (Relevance: " ++ format3 result.score ++
        "):\n" ++ result.chunk.content ++ "\n---\n"

/-- Model of `LLMService._create_prompt` (leading underscore dropped). -/
def create_prompt (question context : String) : String :=
  "You are an expert document analyst specializing in insurance, legal, HR, and compliance domains. Your task is to answer questions based ONLY on the provided context from official documents.\n\nINSTRUCTIONS:\n1. Answer the question using ONLY the information provided in the context\n2. Be precise and specific with details like numbers, dates, percentages, and conditions\n3. If the context doesn't contain enough information to answer the question, say so clearly\n4. Provide explanations and rationale when applicable\n5. Structure your answer clearly and professionally\n6. Include relevant conditions, limitations, or exceptions mentioned in the document\n\nCONTEXT FROM DOCUMENT:\n" ++
    context ++ "\n\nQUESTION: " ++ question ++
    "\n\nANSWER: Based on the provided document context, "

/-- The parsed JSON body of a chat-completion response: the list of
`choices[k]["message"]["content"]` strings. -/
structure GrokResponse where
  choices : List String
deriving DecidableEq

/-- Model of `LLMService._call_grok_api` (leading underscore dropped).  `post` is
the `httpx` POST of the prompt: `.error (.inl code)` is an
`httpx.HTTPStatusError` with that status code, `.error (.inr e)` any other
transport/parse failure.  An empty `choices` list raises
`"No response generated from LLM"`, caught by the generic handler. -/
def call_grok_api (post : String → Except (Sum Nat String) GrokResponse)
    (prompt : String) : Except String String :=
  match post prompt with
  | .error (.inl code) => .error ("API request failed: " ++ toString code)
  | .error (.inr e) => .error ("Failed to get LLM response: " ++ e)
  | .ok result =>
    match result.choices with
    | [] => .error "Failed to get LLM response: No response generated from LLM"
    | c :: _ => .ok (pyStripStr c)

/-- Model of `LLMService.generate_answer`: builds the grounding prompt, calls the
API, and converts any failure into an apology string (its `except` block
catches everything, so `generate_answer` itself never raises). -/
def generate_answer (post : String → Except (Sum Nat String) GrokResponse)
    (question : String) (context_chunks : List RetrievalResult) : String :=
  let context := prepare_context context_chunks
  let prompt := create_prompt question context
  match call_grok_api post prompt with
  | .ok answer => answer
  | .error e =>
    "I apologize, but I couldn't generate an answer for this question due to a technical error: " ++ e

/-! ### Document processor (`DocumentProcessor`) -/

/-- The fallible external calls used by `DocumentProcessor`: the HTTP
download and the PyPDF2/python-docx extraction layers (bytes are modelled
as `List Nat`), plus the event-loop clock read used for the metadata
timestamp. -/
structure DocEnv where
  download : String → Except String (List Nat)
  extract_pdf : List Nat → Except String String
  extract_docx : List Nat → Except String String
  now : ℚ

/-- Model of `DocumentProcessor.download_document`: re-raises any download failure
with the `Failed to download document:` prefix. -/
def download_document (env : DocEnv) (url : String) : Except String (List Nat) :=
  match env.download url with
  | .ok content => .ok content
  | .error e => .error ("Failed to download document: " ++ e)

/-- Model of `DocumentProcessor.extract_text_from_pdf`. -/
def extract_text_from_pdf (env : DocEnv) (content : List Nat) : Except String String :=
  match env.extract_pdf content with
  | .ok text => .ok text
  | .error e => .error ("Failed to extract PDF text: " ++ e)

/-- Model of `DocumentProcessor.extract_text_from_docx`. -/
def extract_text_from_docx (env : DocEnv) (content : List Nat) : Except String String :=
  match env.extract_docx content with
  | .ok text => .ok text
  | .error e => .error ("Failed to extract DOCX text: " ++ e)

/-- Model of `DocumentProcessor.process_document`: download, pick the extractor by
URL suffix (with the bare-`except` PDF-then-DOCX fallback for unknown
suffixes), build the base metadata and chunk the text; everything is
wrapped with the `Failed to process document:` prefix. -/
def process_document (env : DocEnv) (chunk_size chunk_overlap : Nat)
    (document_url : String) : Except String (List DocumentChunk) :=
  match (do
      let content ← download_document env document_url
      let td ←
        if pyEndsWith (pyLower document_url) ".pdf" then do
          let t ← extract_text_from_pdf env content
          pure (t, "pdf")
        else if pyEndsWith (pyLower document_url) ".docx" then do
          let t ← extract_text_from_docx env content
          pure (t, "docx")
        else
          match extract_text_from_pdf env content with
          | .ok t => pure (t, "pdf")
          | .error _ => do
            let t ← extract_text_from_docx env content
            pure (t, "docx")
      let metadata : BaseMetadata :=
        { source_url := document_url
          document_type := td.2
          character_count := td.1.length
          processing_timestamp := env.now }
      chunk_text chunk_size chunk_overlap td.1 metadata :
      Except String (List DocumentChunk)) with
  | .ok chunks => .ok chunks
  | .error e => .error ("Failed to process document: " ++ e)

/-! ### Orchestrator (`RetrievalService`) -/

/-- All fallible collaborators of `RetrievalService`, plus the two
chunking settings it reads from the environment-sourced configuration. -/
structure PipelineEnv where
  doc : DocEnv
  chunk_size : Nat
  chunk_overlap : Nat
  encode : List String → Except String (List (List ℚ))
  create_collection : Except String Unit
  upsert : List PointStruct → Except String Unit
  client_search : EmbedOut → Nat → ℚ → Except String (List ScoredPoint)
  post : String → Except (Sum Nat String) GrokResponse

/-- The `for chunk, embedding in zip(chunks, embeddings)` attach loop:
chunks beyond the length of the embeddings list keep `embedding = none`
(Python `zip` truncates), extra embeddings are dropped. -/
def attach_list (chunks : List DocumentChunk) (vs : List EmbeddingVal) :
    List DocumentChunk :=
  (chunks.zipWith (fun c v => { c with embedding := some v }) vs) ++
    chunks.drop vs.length

/-- Attach whatever `create_embeddings` returned: a flat float vector zips
each chunk with a single float, a vector list zips each chunk with its
vector. -/
def attach_embeddings (chunks : List DocumentChunk) (e : EmbedOut) :
    List DocumentChunk :=
  match e with
  | .inl flat => attach_list chunks (flat.map EmbeddingVal.scalar)
  | .inr vecs => attach_list chunks (vecs.map EmbeddingVal.vector)

/-- Model of `RetrievalService.process_and_store_document`: ingest, embed, attach,
store; any failure is re-raised with the `Failed to process document:`
prefix (on top of the identical prefix already added by
`process_document`).  The returned status dict is ignored by the only
caller, so the success value is `Unit`. -/
def process_and_store_document (env : PipelineEnv) (document_url : String) :
    Except String Unit :=
  match (do
      let chunks ← process_document env.doc env.chunk_size env.chunk_overlap document_url
      let chunk_texts := chunks.map (·.content)
      let embeddings ← create_embeddings env.encode (.inr chunk_texts)
      let chunks := attach_embeddings chunks embeddings
      store_chunks env.create_collection env.upsert chunks :
      Except String Unit) with
  | .ok _ => .ok ()
  | .error e => .error ("Failed to process document: " ++ e)

/-- Model of `RetrievalService.answer_question`: embed the question, search with
`limit=10, score_threshold=0.3`, and either report no relevant
information, or generate an answer.  The `except` block catches embedding
and search failures; `generate_answer` never raises, so the handler is
unreachable past the search. -/
def answer_question (env : PipelineEnv) (question : String) : String :=
  match create_embeddings env.encode (.inl question) with
  | .error e =>
    "I apologize, but I encountered an error while processing your question: " ++ e
  | .ok question_embedding =>
    match search_similar_chunks env.client_search question_embedding 10 0.3 with
    | .error e =>
      "I apologize, but I encountered an error while processing your question: " ++ e
    | .ok relevant_chunks =>
      if relevant_chunks.isEmpty then
        "I couldn't find relevant information in the document to answer this question."
      else generate_answer env.post question relevant_chunks

/-- Model of `RetrievalService.process_query_batch`: ingest once, then answer the
questions in order.  `answer_question` is total (it catches every
exception), so the per-question `except` that would append
`Unable to answer this question due to an error:` is unreachable; the
outer handler fires exactly when ingestion fails and maps every question
to the same error string. -/
def process_query_batch (env : PipelineEnv) (document_url : String)
    (questions : List String) : List String :=
  match process_and_store_document env document_url with
  | .error e => questions.map fun _ => "Error processing document: " ++ e
  | .ok _ => questions.map fun question => answer_question env question

/-- The answer `process_query_batch` assigns to one question, as a
function of that question alone (used to state positional alignment). -/
def slot_answer (env : PipelineEnv) (document_url : String)
    (question : String) : String :=
  match process_and_store_document env document_url with
  | .error e => "Error processing document: " ++ e
  | .ok _ => answer_question env question

/-! ### Lemmas about the text primitives -/

/-- Tokens produced by Python `split()` are non-empty and contain no
whitespace. -/
def GoodToken (w : List Char) : Prop :=
  w ≠ [] ∧ ∀ c ∈ w, c.isWhitespace = false

theorem mem_takeWhile_not_ws (cs : List Char) (d : Char)
    (hd : d ∈ cs.takeWhile fun x => !x.isWhitespace) : d.isWhitespace = false := by
  induction cs with
  | nil => simp [List.takeWhile] at hd
  | cons a l ih =>
    simp only [List.takeWhile] at hd
    by_cases ha : a.isWhitespace
    · simp [ha] at hd
    · simp [ha] at hd
      rcases hd with h | h
      · simpa [h] using ha
      · exact ih h

theorem pySplitF_good (f : Nat) : ∀ (l : List Char), ∀ w ∈ pySplitF f l, GoodToken w := by
  induction f with
  | zero =>
    intro l w hw
    cases l with
    | nil => simp [pySplitF] at hw
    | cons c cs => simp [pySplitF] at hw
  | succ f ih =>
    intro l w hw
    cases l with
    | nil => simp [pySplitF] at hw
    | cons c cs =>
      rw [pySplitF] at hw
      by_cases hc : c.isWhitespace
      · rw [if_pos hc] at hw
        exact ih cs w hw
      · rw [if_neg hc] at hw
        rw [List.mem_cons] at hw
        rcases hw with hw | hw
        · subst hw
          constructor
          · simp
          · intro d hd
            rw [List.mem_cons] at hd
            rcases hd with hd | hd
            · subst hd; simpa using hc
            · exact mem_takeWhile_not_ws cs d hd
        · exact ih _ w hw

theorem pySplit_good (l : List Char) : ∀ w ∈ pySplit l, GoodToken w :=
  pySplitF_good l.length l

theorem takeWhile_all {α : Type} (p : α → Bool) (l : List α)
    (h : ∀ a ∈ l, p a = true) : l.takeWhile p = l := by
  induction l with
  | nil => rfl
  | cons a t ih =>
    simp only [List.takeWhile, h a (by simp)]
    simpa using ih fun b hb => h b (by simp [hb])

theorem takeWhile_all_append_cons {α : Type} (p : α → Bool) (l : List α)
    (h : ∀ a ∈ l, p a = true) (b : α) (hb : p b = false) (r : List α) :
    (l ++ b :: r).takeWhile p = l := by
  induction l with
  | nil => simp [List.takeWhile, hb]
  | cons a t ih =>
    simp only [List.cons_append, List.takeWhile, h a (by simp)]
    simpa using ih fun x hx => h x (by simp [hx])

theorem dropWhile_all_append_cons {α : Type} (p : α → Bool) (l : List α)
    (h : ∀ a ∈ l, p a = true) (b : α) (hb : p b = false) (r : List α) :
    (l ++ b :: r).dropWhile p = b :: r := by
  induction l with
  | nil => simp [List.dropWhile, hb]
  | cons a t ih =>
    simp only [List.cons_append, List.dropWhile, h a (by simp)]
    exact ih fun x hx => h x (by simp [hx])

theorem dropWhile_all {α : Type} (p : α → Bool) (l : List α)
    (h : ∀ a ∈ l, p a = true) : l.dropWhile p = [] := by
  induction l with
  | nil => rfl
  | cons a t ih =>
    simp only [List.dropWhile, h a (by simp)]
    exact ih fun x hx => h x (by simp [hx])

theorem joinSpace_nil : joinSpace [] = [] := rfl

theorem joinSpace_singleton (t : List Char) : joinSpace [t] = t := by
  simp [joinSpace, List.intercalate, List.intersperse_singleton]

theorem joinSpace_cons_cons (t t2 : List Char) (ts2 : List (List Char)) :
    joinSpace (t :: t2 :: ts2) = t ++ ' ' :: joinSpace (t2 :: ts2) := by
  simp only [joinSpace, List.intercalate, List.intersperse_cons_cons,
    List.flatten_cons]
  simp

/-- Python `split()` is a left inverse of `" ".join` on good token lists. -/
theorem pySplit_joinSpace (ws : List (List Char)) (h : ∀ w ∈ ws, GoodToken w) :
    pySplit (joinSpace ws) = ws := by
  induction ws with
  | nil => simp [joinSpace_nil, pySplit_nil]
  | cons t ts ih =>
    obtain ⟨hne, hnw⟩ := h t (by simp)
    obtain ⟨c, t', rfl⟩ := List.exists_cons_of_ne_nil hne
    have hc : c.isWhitespace = false := hnw c (by simp)
    have ht' : ∀ d ∈ t', (!d.isWhitespace) = true := by
      intro d hd; simp [hnw d (by simp [hd])]
    cases ts with
    | nil =>
      rw [joinSpace_singleton, pySplit_cons, if_neg (by simp [hc])]
      rw [takeWhile_all _ _ ht', dropWhile_all _ _ ht']
      simp [pySplit_nil]
    | cons t2 ts2 =>
      rw [joinSpace_cons_cons, List.cons_append, pySplit_cons, if_neg (by simp [hc])]
      rw [takeWhile_all_append_cons _ _ ht' ' ' (by simp) _,
        dropWhile_all_append_cons _ _ ht' ' ' (by simp) _]
      have hws : pySplit (' ' :: joinSpace (t2 :: ts2)) =
          pySplit (joinSpace (t2 :: ts2)) := by
        rw [pySplit_cons, if_pos (by simp)]
      rw [hws, ih fun w hw => h w (by simp [hw])]

theorem joinSpace_ne_nil (t : List Char) (ts : List (List Char))
    (ht : t ≠ []) : joinSpace (t :: ts) ≠ [] := by
  cases ts with
  | nil => simpa [joinSpace_singleton] using ht
  | cons t2 ts2 =>
    rw [joinSpace_cons_cons]
    intro hcontra
    rcases List.append_eq_nil.mp hcontra with ⟨h1, _⟩
    exact ht h1

/-- The head of a good join is a non-whitespace character. -/
theorem joinSpace_head_not_ws (t : List Char) (ts : List (List Char))
    (h : ∀ w ∈ t :: ts, GoodToken w) :
    ∃ c r, joinSpace (t :: ts) = c :: r ∧ c.isWhitespace = false := by
  obtain ⟨hne, hnw⟩ := h t (by simp)
  obtain ⟨c, t', rfl⟩ := List.exists_cons_of_ne_nil hne
  cases ts with
  | nil =>
    exact ⟨c, t', by rw [joinSpace_singleton], hnw c (by simp)⟩
  | cons t2 ts2 =>
    refine ⟨c, t' ++ ' ' :: joinSpace (t2 :: ts2), ?_, hnw c (by simp)⟩
    rw [joinSpace_cons_cons, List.cons_append]

/-- The last character of a good join is a non-whitespace character. -/
theorem joinSpace_getLast_not_ws (ws : List (List Char)) (hne : ws ≠ [])
    (h : ∀ w ∈ ws, GoodToken w) :
    ∃ c, (joinSpace ws).getLast? = some c ∧ c.isWhitespace = false := by
  induction ws with
  | nil => exact absurd rfl hne
  | cons t ts ih =>
    obtain ⟨htne, htnw⟩ := h t (by simp)
    cases ts with
    | nil =>
      rw [joinSpace_singleton]
      obtain ⟨c, hc⟩ := Option.isSome_iff_exists.mp (List.getLast?_isSome.mpr htne)
      exact ⟨c, hc, htnw c (List.mem_of_mem_getLast? hc)⟩
    | cons t2 ts2 =>
      obtain ⟨c, hc, hcw⟩ := ih (by simp) fun w hw => h w (by simp [hw])
      refine ⟨c, ?_, hcw⟩
      rw [joinSpace_cons_cons, List.getLast?_append]
      have hne2 : joinSpace (t2 :: ts2) ≠ [] :=
        joinSpace_ne_nil t2 ts2 (h t2 (by simp)).1
      obtain ⟨y, ys, hys⟩ := List.exists_cons_of_ne_nil hne2
      rw [hys] at hc ⊢
      rw [List.getLast?_cons_cons, hc]
      rfl

/-- Python `strip()` is the identity on a good join. -/
theorem pyStrip_joinSpace (ws : List (List Char)) (h : ∀ w ∈ ws, GoodToken w) :
    pyStrip (joinSpace ws) = joinSpace ws := by
  cases ws with
  | nil => simp [joinSpace, List.intercalate, pyStrip]
  | cons t ts =>
    obtain ⟨c, r, hj, hcw⟩ := joinSpace_head_not_ws t ts h
    obtain ⟨d, hd, hdw⟩ := joinSpace_getLast_not_ws (t :: ts) (by simp) h
    unfold pyStrip
    rw [hj]
    rw [List.dropWhile_cons_of_neg (by simp [hcw])]
    have hrev : (c :: r).reverse.head? = some d := by
      rw [List.head?_reverse, ← hj, hd]
    obtain ⟨rev', hrev'⟩ : ∃ l', (c :: r).reverse = d :: l' := by
      cases hres : (c :: r).reverse with
      | nil => simp [hres] at hrev
      | cons a l' =>
        rw [hres] at hrev
        simp at hrev
        exact ⟨l', by rw [hrev]⟩
    rw [hrev', List.dropWhile_cons_of_neg (by simp [hdw]), ← hrev',
      List.reverse_reverse]

/-! ### Lemmas about the chunking loop -/

theorem pyRangeIdx_pos (len : Nat) (step : Int) (h : 0 < step) :
    pyRangeIdx len step =
      (List.range ((len + step.toNat - 1) / step.toNat)).map (· * step.toNat) := by
  simp [pyRangeIdx, h]

theorem pyRangeIdx_length (len : Nat) (step : Int) (h : 0 < step) :
    (pyRangeIdx len step).length = (len + step.toNat - 1) / step.toNat := by
  simp [pyRangeIdx_pos len step h]

theorem pyRangeIdx_get (len : Nat) (step : Int) (h : 0 < step) (p : Nat)
    (hp : p < (pyRangeIdx len step).length) :
    (pyRangeIdx len step).get ⟨p, hp⟩ = p * step.toNat := by
  have hp' : p < (len + step.toNat - 1) / step.toNat := by
    rwa [pyRangeIdx_length len step h] at hp
  simp [pyRangeIdx_pos len step h]

/-- Every index yielded by `range(0, len, step)` is below `len`. -/
theorem pyRangeIdx_get_lt (len : Nat) (step : Int) (h : 0 < step) (p : Nat)
    (hp : p < (pyRangeIdx len step).length) : p * step.toNat < len := by
  have hs : 0 < step.toNat := by omega
  rw [pyRangeIdx_length len step h] at hp
  have h1 : ((len + step.toNat - 1) / step.toNat) * step.toNat ≤
      len + step.toNat - 1 := Nat.div_mul_le_self _ _
  have h2 : (p + 1) * step.toNat ≤
      ((len + step.toNat - 1) / step.toNat) * step.toNat :=
    Nat.mul_le_mul_right _ (Nat.succ_le_of_lt hp)
  have h3 : p * step.toNat + step.toNat ≤ len + step.toNat - 1 := by
    calc p * step.toNat + step.toNat = (p + 1) * step.toNat := by ring
    _ ≤ _ := h2.trans h1
  omega

theorem build_chunks_length (cs : Nat) (words : List (List Char))
    (md : BaseMetadata) (idxs : List Nat) (pos : Nat) :
    (build_chunks cs words md idxs pos).length = idxs.length := by
  induction idxs generalizing pos with
  | nil => rfl
  | cons i rest ih => simp [build_chunks, ih]

theorem build_chunks_get (cs : Nat) (words : List (List Char))
    (md : BaseMetadata) (idxs : List Nat) (pos k : Nat)
    (hk : k < (build_chunks cs words md idxs pos).length)
    (hk' : k < idxs.length) :
    (build_chunks cs words md idxs pos).get ⟨k, hk⟩ =
      mk_chunk cs words md (pos + k) (idxs.get ⟨k, hk'⟩) := by
  induction idxs generalizing pos k with
  | nil => exact absurd hk' (by simp)
  | cons i rest ih =>
    cases k with
    | zero => simp [build_chunks]
    | succ k =>
      have hk2 : k < (build_chunks cs words md rest (pos + 1)).length := by
        simpa [build_chunks] using hk
      have hk2' : k < rest.length := by simpa using hk'
      have := ih (pos + 1) k hk2 hk2'
      simp only [build_chunks, List.get_cons_succ]
      rw [this]
      congr 1
      omega

/-- For a positive stride, `chunk_text` succeeds and is the accumulation
loop over the Python range. -/
theorem chunk_text_ok (cs co : Nat) (text : String) (md : BaseMetadata)
    (h : co < cs) :
    chunk_text cs co text md =
      .ok (build_chunks cs (pySplit text.toList) md
        (pyRangeIdx (pySplit text.toList).length ((cs : Int) - (co : Int))) 0) := by
  unfold chunk_text
  rw [if_neg (by omega)]

theorem window_good (text : List Char) (i cs : Nat) :
    ∀ w ∈ ((pySplit text).drop i).take cs, GoodToken w := fun w hw =>
  pySplit_good text w (List.mem_of_mem_drop (List.mem_of_mem_take hw))

theorem mk_chunk_content (cs : Nat) (text : List Char) (md : BaseMetadata)
    (pos i : Nat) :
    (mk_chunk cs (pySplit text) md pos i).content =
      String.mk (joinSpace (((pySplit text).drop i).take cs)) := by
  unfold mk_chunk
  exact congrArg String.mk (pyStrip_joinSpace _ (window_good text i cs))

theorem mk_chunk_tokens (cs : Nat) (text : List Char) (md : BaseMetadata)
    (pos i : Nat) :
    pySplit (mk_chunk cs (pySplit text) md pos i).content.toList =
      ((pySplit text).drop i).take cs := by
  rw [mk_chunk_content]
  show pySplit (String.mk _).toList = _
  rw [show ∀ l : List Char, (String.mk l).toList = l from fun _ => rfl]
  exact pySplit_joinSpace _ (window_good text i cs)

theorem pyRangeIdx_zero_len (step : Int) : pyRangeIdx 0 step = [] := by
  unfold pyRangeIdx
  by_cases h : 0 < step
  · rw [if_pos h]
    have h0 : (0 + step.toNat - 1) / step.toNat = 0 := Nat.div_eq_of_lt (by omega)
    rw [h0]
    rfl
  · rw [if_neg h]

/-! ### Statement helpers for the chunking claims -/

/-- Sample base metadata used in concrete witnesses. -/
def sampleMeta : BaseMetadata :=
  { source_url := "http://example.com/doc.pdf"
    document_type := "pdf"
    character_count := 9
    processing_timestamp := 0 }

/-- The whitespace tokens of a chunk's stored content. -/
def chunkTokens (c : DocumentChunk) : List (List Char) :=
  pySplit c.content.toList

/-- The last `n` elements of a list. -/
def lastN {α : Type} (n : Nat) (l : List α) : List α :=
  l.drop (l.length - n)

/-- The chunk list of a successful `chunk_text` run (empty on failure);
used to state concrete counterexamples compactly. -/
def chunksOf (chunk_size chunk_overlap : Nat) (text : String)
    (md : BaseMetadata) : List DocumentChunk :=
  (chunk_text chunk_size chunk_overlap text md).toOption.getD []

/-! ### Claims about the chunker -/

/-- C4, counterexample.  The claim says every configuration with
`chunk_overlap ≥ chunk_size` makes chunking fail with a `ConfigurationError`.
No such validation exists anywhere in the code: with `chunk_overlap = 3 >
2 = chunk_size` the stride is negative, Python's `range(0, len, -1)` is
simply empty, and `chunk_text` returns zero chunks without any error. -/
theorem c4_counterexample :
    (2 : Nat) ≤ 3 ∧ chunk_text 2 3 "a b c" sampleMeta = Except.ok [] :=
  ⟨by omega, by rfl⟩

/-- C4 (amended).  When `chunk_overlap = chunk_size` the stride is zero
and `chunk_text` raises (Python `range` rejects a zero step — a
`ValueError`, not a `ConfigurationError`, which does not exist in the
code); when `chunk_overlap > chunk_size` the stride is negative, the range
is empty and `chunk_text` silently returns the empty chunk list with no
error. -/
theorem c4_overlap_ge_size (chunk_size chunk_overlap : Nat) (text : String)
    (md : BaseMetadata) :
    (chunk_overlap = chunk_size →
      chunk_text chunk_size chunk_overlap text md =
        Except.error "range() arg 3 must not be zero") ∧
    (chunk_size < chunk_overlap →
      chunk_text chunk_size chunk_overlap text md = Except.ok []) := by
  constructor
  · intro h
    unfold chunk_text
    rw [if_pos (by omega)]
  · intro h
    unfold chunk_text
    rw [if_neg (by omega)]
    have hr : pyRangeIdx (pySplit text.toList).length
        ((chunk_size : Int) - (chunk_overlap : Int)) = [] := by
      unfold pyRangeIdx
      rw [if_neg (by omega)]
    rw [hr]
    rfl

/-- Witness for `c4_overlap_ge_size` at `chunk_size = 2` with overlaps 2
and 3 on a concrete text. -/
theorem c4_overlap_ge_size_witness :
    chunk_text 2 2 "a b c" sampleMeta =
        Except.error "range() arg 3 must not be zero" ∧
    chunk_text 2 3 "a b c" sampleMeta = Except.ok [] :=
  ⟨(c4_overlap_ge_size 2 2 "a b c" sampleMeta).1 rfl,
    (c4_overlap_ge_size 2 3 "a b c" sampleMeta).2 (by omega)⟩

/-- C5.  With a positive stride, chunking a text whose whitespace
split is empty (empty or whitespace-only text) returns the empty chunk
list and does not raise. -/
theorem c5_empty_split (chunk_size chunk_overlap : Nat) (text : String)
    (md : BaseMetadata) (hstride : chunk_overlap < chunk_size)
    (hempty : pySplit text.toList = []) :
    chunk_text chunk_size chunk_overlap text md = Except.ok [] := by
  rw [chunk_text_ok _ _ _ _ hstride, hempty]
  rw [List.length_nil, pyRangeIdx_zero_len]
  rfl

/-- Witness for `c5_empty_split` at the repository's default configuration
(`CHUNK_SIZE = 1000`, `CHUNK_OVERLAP = 200`) on whitespace-only text. -/
theorem c5_empty_split_witness :
    (200 : Nat) < 1000 ∧ pySplit (String.toList "   ") = [] ∧
    chunk_text 1000 200 "   " sampleMeta = Except.ok [] :=
  ⟨by omega, by decide, c5_empty_split 1000 200 "   " sampleMeta (by omega) (by decide)⟩

/-- The `p`-th chunk of a successful positive-stride `chunk_text` run is
`mk_chunk` at start index `p * (chunk_size - chunk_overlap)`, and that
start index is inside the word list. -/
theorem chunk_text_get (chunk_size chunk_overlap : Nat) (text : String)
    (md : BaseMetadata) (hstride : chunk_overlap < chunk_size)
    (chunks : List DocumentChunk)
    (hok : chunk_text chunk_size chunk_overlap text md = Except.ok chunks)
    (p : Nat) (hp : p < chunks.length) :
    chunks.get ⟨p, hp⟩ =
      mk_chunk chunk_size (pySplit text.toList) md p
        (p * (chunk_size - chunk_overlap)) ∧
    p * (chunk_size - chunk_overlap) < (pySplit text.toList).length := by
  have hcb := chunk_text_ok chunk_size chunk_overlap text md hstride
  rw [hok] at hcb
  injection hcb with hchunks
  subst hchunks
  have hpos : (0 : Int) < (chunk_size : Int) - (chunk_overlap : Int) := by omega
  have htn : ((chunk_size : Int) - (chunk_overlap : Int)).toNat =
      chunk_size - chunk_overlap := by omega
  have hkl : p < (pyRangeIdx (pySplit text.toList).length
      ((chunk_size : Int) - (chunk_overlap : Int))).length := by
    rwa [build_chunks_length] at hp
  constructor
  · have hget := build_chunks_get chunk_size (pySplit text.toList) md _ 0 p hp hkl
    rw [pyRangeIdx_get _ _ hpos p hkl, htn] at hget
    simpa using hget
  · have hlt := pyRangeIdx_get_lt (pySplit text.toList).length _ hpos p hkl
    rwa [htn] at hlt

/-- C10.  Every chunk of a positive-stride run satisfies the metadata
invariants: `chunk_index` is the position in the returned list,
`start_word = chunk_index * stride`, `end_word - start_word = word_count`,
`1 ≤ word_count ≤ chunk_size`, and the content is the space-join of
exactly the split tokens at positions `[start_word, end_word)`. -/
theorem c10_chunk_metadata (chunk_size chunk_overlap : Nat) (text : String)
    (md : BaseMetadata) (hstride : chunk_overlap < chunk_size)
    (chunks : List DocumentChunk)
    (hok : chunk_text chunk_size chunk_overlap text md = Except.ok chunks)
    (p : Nat) (hp : p < chunks.length) :
    (chunks.get ⟨p, hp⟩).metadata.chunk_index = p ∧
    (chunks.get ⟨p, hp⟩).metadata.start_word =
      p * (chunk_size - chunk_overlap) ∧
    (chunks.get ⟨p, hp⟩).metadata.end_word -
        (chunks.get ⟨p, hp⟩).metadata.start_word =
      (chunks.get ⟨p, hp⟩).metadata.word_count ∧
    1 ≤ (chunks.get ⟨p, hp⟩).metadata.word_count ∧
    (chunks.get ⟨p, hp⟩).metadata.word_count ≤ chunk_size ∧
    (chunks.get ⟨p, hp⟩).content =
      String.mk (joinSpace (((pySplit text.toList).drop
        (chunks.get ⟨p, hp⟩).metadata.start_word).take
        ((chunks.get ⟨p, hp⟩).metadata.end_word -
          (chunks.get ⟨p, hp⟩).metadata.start_word))) := by
  obtain ⟨hg, hlt⟩ :=
    chunk_text_get chunk_size chunk_overlap text md hstride chunks hok p hp
  rw [hg]
  have hL : (((pySplit text.toList).drop
      (p * (chunk_size - chunk_overlap))).take chunk_size).length =
      min chunk_size ((pySplit text.toList).length -
        p * (chunk_size - chunk_overlap)) := by
    rw [List.length_take, List.length_drop]
  simp only [mk_chunk]
  refine ⟨trivial, trivial, ?_, ?_, ?_, ?_⟩
  · rw [hL]
    omega
  · rw [hL]
    omega
  · rw [hL]
    omega
  · rw [pyStrip_joinSpace _ (window_good text.toList _ _)]
    have htake : ((pySplit text.toList).drop
        (p * (chunk_size - chunk_overlap))).take chunk_size =
        ((pySplit text.toList).drop (p * (chunk_size - chunk_overlap))).take
          (min (p * (chunk_size - chunk_overlap) + chunk_size)
            (pySplit text.toList).length - p * (chunk_size - chunk_overlap)) := by
      rw [List.take_eq_take, List.length_drop]
      omega
    rw [← htake]

/-- Witness for `c10_chunk_metadata`: the middle chunk of
`chunk_text 4 2 "a b c d e"` (content `"c d e"`) has
`chunk_index = 1` and `start_word = 1 * (4 - 2) = 2`. -/
theorem c10_chunk_metadata_witness :
    ((chunksOf 4 2 "a b c d e" sampleMeta).get ⟨1, by decide⟩).metadata.chunk_index = 1 ∧
    ((chunksOf 4 2 "a b c d e" sampleMeta).get ⟨1, by decide⟩).metadata.start_word =
      1 * (4 - 2) :=
  ⟨(c10_chunk_metadata 4 2 "a b c d e" sampleMeta (by omega) _ rfl 1 (by decide)).1,
    (c10_chunk_metadata 4 2 "a b c d e" sampleMeta (by omega) _ rfl 1 (by decide)).2.1⟩

/-- C6, counterexample.  The unrestricted overlap invariant fails when
chunk `i` is itself shorter than `chunk_size`: with `chunk_size = 4`,
`chunk_overlap = 2` and text `"a b c d e"` the chunks are `"a b c d"`,
`"c d e"`, `"e"`; for the adjacent pair (1, 2) the last 2 tokens of chunk
1 are `["d", "e"]` but the first 2 tokens of chunk 2 are just `["e"]`. -/
theorem c6_counterexample :
    ((0 : Nat) < 2 ∧ (2 : Nat) < 4) ∧
    (chunksOf 4 2 "a b c d e" sampleMeta).length = 3 ∧
    lastN 2 (chunkTokens ((chunksOf 4 2 "a b c d e" sampleMeta).get ⟨1, by decide⟩)) ≠
      (chunkTokens ((chunksOf 4 2 "a b c d e" sampleMeta).get ⟨2, by decide⟩)).take 2 := by
  decide

/-- C6 (amended).  The overlap invariant holds for every adjacent pair
whose left chunk is full-length (`word_count = chunk_size`): the last
`chunk_overlap` tokens of chunk `p` equal the first `chunk_overlap` tokens
of chunk `p + 1`.  (Only trailing chunks can be shorter, and for those the
counterexample shows the invariant can fail.) -/
theorem c6_overlap_of_full (chunk_size chunk_overlap : Nat) (text : String)
    (md : BaseMetadata) (hstride : chunk_overlap < chunk_size)
    (chunks : List DocumentChunk)
    (hok : chunk_text chunk_size chunk_overlap text md = Except.ok chunks)
    (p : Nat) (hp : p < chunks.length) (hp1 : p + 1 < chunks.length)
    (hfull : (chunks.get ⟨p, hp⟩).metadata.word_count = chunk_size) :
    lastN chunk_overlap (chunkTokens (chunks.get ⟨p, hp⟩)) =
      (chunkTokens (chunks.get ⟨p + 1, hp1⟩)).take chunk_overlap := by
  obtain ⟨hg, hlt⟩ :=
    chunk_text_get chunk_size chunk_overlap text md hstride chunks hok p hp
  obtain ⟨hg1, hlt1⟩ :=
    chunk_text_get chunk_size chunk_overlap text md hstride chunks hok (p + 1) hp1
  rw [hg] at hfull ⊢
  rw [hg1]
  unfold chunkTokens
  rw [mk_chunk_tokens, mk_chunk_tokens]
  have hfull' : (((pySplit text.toList).drop
      (p * (chunk_size - chunk_overlap))).take chunk_size).length = chunk_size :=
    hfull
  unfold lastN
  rw [hfull', List.drop_take, List.drop_drop, List.take_take]
  have h1 : chunk_size - (chunk_size - chunk_overlap) = chunk_overlap := by omega
  have h2 : p * (chunk_size - chunk_overlap) + (chunk_size - chunk_overlap) =
      (p + 1) * (chunk_size - chunk_overlap) := by ring
  have h3 : min chunk_overlap chunk_size = chunk_overlap := by omega
  rw [h1, h2, h3]

/-- Witness for `c6_overlap_of_full`: the pair (0, 1) of
`chunk_text 4 2 "a b c d e"` — chunk 0 `"a b c d"` is full-length and
shares `["c", "d"]` with chunk 1 `"c d e"`. -/
theorem c6_overlap_of_full_witness :
    lastN 2 (chunkTokens ((chunksOf 4 2 "a b c d e" sampleMeta).get ⟨0, by decide⟩)) =
      (chunkTokens ((chunksOf 4 2 "a b c d e" sampleMeta).get ⟨1, by decide⟩)).take 2 :=
  c6_overlap_of_full 4 2 "a b c d e" sampleMeta (by omega) _ rfl 0
    (by decide) (by decide) (by decide)

/-! ### Claims about the vector store and the embedder -/

/-- C7.  The relevance label is `"high"` iff `score ≥ 0.8`, `"medium"`
iff `0.6 ≤ score < 0.8`, `"low"` otherwise; tier boundaries are inclusive
on the lower bound: `0.8 ↦ "high"`, `0.6 ↦ "medium"`, `0.59999 ↦ "low"`. -/
theorem c7_relevance_boundaries (score : ℚ) :
    (get_relevance_label score = "high" ↔ (0.8 : ℚ) ≤ score) ∧
    (get_relevance_label score = "medium" ↔ (0.6 : ℚ) ≤ score ∧ score < 0.8) ∧
    (get_relevance_label score = "low" ↔ score < 0.6) ∧
    get_relevance_label 0.8 = "high" ∧
    get_relevance_label 0.6 = "medium" ∧
    get_relevance_label 0.59999 = "low" := by
  refine ⟨?_, ?_, ?_, by norm_num [get_relevance_label],
    by norm_num [get_relevance_label], by norm_num [get_relevance_label]⟩
  · unfold get_relevance_label
    split_ifs with h1 h2
    · exact iff_of_true rfl h1
    · exact iff_of_false (by decide) h1
    · exact iff_of_false (by decide) h1
  · unfold get_relevance_label
    split_ifs with h1 h2
    · exact iff_of_false (by decide) fun h => (not_lt.mpr h1) h.2
    · exact iff_of_true rfl ⟨h2, not_le.mp h1⟩
    · exact iff_of_false (by decide) fun h => h2 h.1
  · unfold get_relevance_label
    split_ifs with h1 h2
    · exact iff_of_false (by decide)
        (not_lt.mpr ((by norm_num : (0.6 : ℚ) ≤ 0.8).trans h1))
    · exact iff_of_false (by decide) (not_lt.mpr h2)
    · exact iff_of_true rfl (not_le.mp h2)

theorem store_pass_points_filter (chunks : List DocumentChunk) :
    (store_pass (chunks.filter fun c => c.embedding.isSome)).1 =
      (store_pass chunks).1 := by
  induction chunks with
  | nil => rfl
  | cons c rest ih =>
    cases hc : c.embedding with
    | none => simp [store_pass, List.filter, hc, ih]
    | some e => simp [store_pass, List.filter, hc, ih]

/-- C8.  `store_chunks` skips every chunk without an embedding: the
upserted points are exactly the chunks with a non-null embedding (in
order), one warning line is logged per skipped chunk, and the overall
outcome of `store_chunks` is unchanged by the presence of the skipped
chunks — they can never cause it to raise. -/
theorem c8_store_skips_missing (create_collection : Except String Unit)
    (upsert : List PointStruct → Except String Unit)
    (chunks : List DocumentChunk) :
    (store_pass chunks).1 = (chunks.filter fun c => c.embedding.isSome).map
      (fun c =>
        { id := c.id, vector := c.embedding.getD (.vector []),
          payload_content := c.content, payload_metadata := c.metadata }) ∧
    (store_pass chunks).2 = (chunks.filter fun c => c.embedding = none).map
      (fun c => "Chunk " ++ c.id ++ " has no embedding, skipping") ∧
    store_chunks create_collection upsert chunks =
      store_chunks create_collection upsert
        (chunks.filter fun c => c.embedding.isSome) := by
  refine ⟨?_, ?_, ?_⟩
  · induction chunks with
    | nil => rfl
    | cons c rest ih =>
      cases hc : c.embedding with
      | none => simp [store_pass, List.filter, hc, ih]
      | some e => simp [store_pass, List.filter, hc, ih]
  · induction chunks with
    | nil => rfl
    | cons c rest ih =>
      cases hc : c.embedding with
      | none => simp [store_pass, List.filter, hc, ih]
      | some e => simp [store_pass, List.filter, hc, ih]
  · unfold store_chunks
    rw [store_pass_points_filter]

/-- C9, counterexample.  The claim says only batches of two or more
texts return a sequence of vectors, but the empty batch (zero texts) also
returns a sequence — the empty one: `create_embeddings` on `[]` yields
`Sum.inr []`, not a flat vector and not an error. -/
theorem c9_counterexample :
    (effective_batch (Sum.inr [])).length = 0 ∧
    create_embeddings (fun ts => Except.ok (ts.map fun _ => [1]))
      (Sum.inr []) = Except.ok (Sum.inr []) :=
  ⟨rfl, rfl⟩

/-- C9 (amended).  Whenever the effective batch has exactly one text —
single string or one-element list — a successful `create_embeddings`
result is a single flat vector (`Sum.inl`); batches of any other size
(zero, or two and more) return a sequence of vectors (`Sum.inr`). -/
theorem c9_single_text_flat
    (encode : List String → Except String (List (List ℚ)))
    (texts : Sum String (List String)) :
    ((effective_batch texts).length = 1 →
      ∀ r, create_embeddings encode texts = Except.ok r →
        ∃ v, r = Sum.inl v) ∧
    ((effective_batch texts).length ≠ 1 →
      ∀ r, create_embeddings encode texts = Except.ok r →
        ∃ vs, r = Sum.inr vs) := by
  constructor
  · intro h r hr
    unfold create_embeddings at hr
    cases he : encode (effective_batch texts) with
    | error e => rw [he] at hr; exact absurd hr (by simp)
    | ok embeddings =>
      rw [he] at hr
      dsimp only [] at hr
      rw [if_pos h] at hr
      cases embeddings with
      | nil => exact absurd hr (by simp)
      | cons v vs =>
        refine ⟨v, ?_⟩
        have := (Except.ok.injEq _ _).mp hr
        exact this.symm
  · intro h r hr
    unfold create_embeddings at hr
    cases he : encode (effective_batch texts) with
    | error e => rw [he] at hr; exact absurd hr (by simp)
    | ok embeddings =>
      rw [he] at hr
      dsimp only [] at hr
      rw [if_neg h] at hr
      refine ⟨embeddings, ?_⟩
      have := (Except.ok.injEq _ _).mp hr
      exact this.symm

/-- Witness for `c9_single_text_flat`: a single-string call returns the
flat vector, a two-text call returns the vector list. -/
theorem c9_single_text_flat_witness :
    (∃ v, (Sum.inl [(1 : ℚ)] : EmbedOut) = Sum.inl v) ∧
    (∃ vs, (Sum.inr [[(1 : ℚ)], [(1 : ℚ)]] : EmbedOut) = Sum.inr vs) :=
  ⟨(c9_single_text_flat (fun ts => Except.ok (ts.map fun _ => [1]))
      (Sum.inl "q")).1 rfl (Sum.inl [1]) rfl,
    (c9_single_text_flat (fun ts => Except.ok (ts.map fun _ => [1]))
      (Sum.inr ["a", "b"])).2 (by simp [effective_batch])
      (Sum.inr [[1], [1]]) rfl⟩

/-! ### Claims about the orchestrator -/

/-- C1.  For every environment, document URL and question list,
`process_query_batch` returns exactly one answer per question, positionally
aligned: slot `i` is `slot_answer` applied to question `i` alone,
regardless of whether ingestion or any per-question step fails. -/
theorem c1_batch_alignment (env : PipelineEnv) (document_url : String)
    (questions : List String) :
    (process_query_batch env document_url questions).length =
      questions.length ∧
    ∀ i : Nat, (process_query_batch env document_url questions)[i]? =
      questions[i]?.map (slot_answer env document_url) := by
  unfold process_query_batch slot_answer
  cases h : process_and_store_document env document_url with
  | error e =>
    refine ⟨by simp, fun i => ?_⟩
    rw [List.getElem?_map]
  | ok u =>
    refine ⟨by simp, fun i => ?_⟩
    rw [List.getElem?_map]

/-- C2.  If any step of ingestion fails — the whole of
`process_and_store_document`, covering download, extraction, chunking,
embedding and the vector-store write — then every answer slot carries the
explanatory `Error processing document:` string and the list still has
one slot per question. -/
theorem c2_ingestion_failure_all_slots (env : PipelineEnv)
    (document_url : String) (questions : List String) (e : String)
    (h : process_and_store_document env document_url = Except.error e) :
    process_query_batch env document_url questions =
      questions.map (fun _ => "Error processing document: " ++ e) ∧
    (process_query_batch env document_url questions).length =
      questions.length ∧
    ∀ a ∈ process_query_batch env document_url questions,
      a = "Error processing document: " ++ e := by
  unfold process_query_batch
  rw [h]
  refine ⟨rfl, by simp, ?_⟩
  intro a ha
  rw [List.mem_map] at ha
  obtain ⟨q, _, hq⟩ := ha
  exact hq.symm

/-- A concrete environment whose document download fails: every other
collaborator behaves normally. -/
def envDownloadFail : PipelineEnv :=
  { doc :=
      { download := fun _ => Except.error "connection refused"
        extract_pdf := fun _ => Except.error "unreachable"
        extract_docx := fun _ => Except.error "unreachable"
        now := 0 }
    chunk_size := 1000
    chunk_overlap := 200
    encode := fun ts => Except.ok (ts.map fun _ => [1])
    create_collection := Except.ok ()
    upsert := fun _ => Except.ok ()
    client_search := fun _ _ _ => Except.ok []
    post := fun _ => Except.ok ⟨["ok"]⟩ }

/-- Witness for `c2_ingestion_failure_all_slots`: a failing download makes
both slots of a two-question batch carry the (doubly wrapped) error
string. -/
theorem c2_ingestion_failure_all_slots_witness :
    process_query_batch envDownloadFail "http://example.com/doc.pdf"
        ["q1", "q2"] =
      ["q1", "q2"].map (fun _ =>
        "Error processing document: " ++
          "Failed to process document: Failed to process document: Failed to download document: connection refused") ∧
    (process_query_batch envDownloadFail "http://example.com/doc.pdf"
        ["q1", "q2"]).length = 2 ∧
    ∀ a ∈ process_query_batch envDownloadFail "http://example.com/doc.pdf"
        ["q1", "q2"],
      a = "Error processing document: " ++
        "Failed to process document: Failed to process document: Failed to download document: connection refused" :=
  c2_ingestion_failure_all_slots envDownloadFail "http://example.com/doc.pdf"
    ["q1", "q2"]
    "Failed to process document: Failed to process document: Failed to download document: connection refused"
    (by rfl)

/-- C3.  Once ingestion has succeeded, answer slots are fully
isolated: slot `i` is `answer_question` of question `i` alone; a question
whose generation call fails gets exactly the apology-plus-error string in
its own slot, while a question whose embedding, search and generation all
succeed gets the generated answer. -/
theorem c3_per_question_isolation (env : PipelineEnv) (document_url : String)
    (questions : List String) (u : Unit)
    (hok : process_and_store_document env document_url = Except.ok u) :
    (∀ i : Nat, (process_query_batch env document_url questions)[i]? =
      questions[i]?.map (answer_question env)) ∧
    (∀ question emb pts gerr,
      create_embeddings env.encode (Sum.inl question) = Except.ok emb →
      env.client_search emb 10 0.3 = Except.ok pts →
      pts ≠ [] →
      call_grok_api env.post
          (create_prompt question (prepare_context (pts.map scored_to_result))) =
        Except.error gerr →
      answer_question env question =
        "I apologize, but I couldn't generate an answer for this question due to a technical error: "
          ++ gerr) ∧
    (∀ question emb pts answer,
      create_embeddings env.encode (Sum.inl question) = Except.ok emb →
      env.client_search emb 10 0.3 = Except.ok pts →
      pts ≠ [] →
      call_grok_api env.post
          (create_prompt question (prepare_context (pts.map scored_to_result))) =
        Except.ok answer →
      answer_question env question = answer) := by
  refine ⟨?_, ?_, ?_⟩
  · intro i
    unfold process_query_batch
    rw [hok]
    dsimp only []
    rw [List.getElem?_map]
  · intro question emb pts gerr hqe hsearch hne hgrok
    unfold answer_question
    rw [hqe]
    dsimp only []
    unfold search_similar_chunks
    rw [hsearch]
    dsimp only []
    rw [if_neg (by simp [hne])]
    unfold generate_answer
    dsimp only []
    rw [hgrok]
  · intro question emb pts answer hqe hsearch hne hgrok
    unfold answer_question
    rw [hqe]
    dsimp only []
    unfold search_similar_chunks
    rw [hsearch]
    dsimp only []
    rw [if_neg (by simp [hne])]
    unfold generate_answer
    dsimp only []
    rw [hgrok]

/-- Chunk metadata used by the concrete retrieval hit below. -/
def sampleChunkMeta : ChunkMetadata :=
  { base := sampleMeta
    chunk_index := 0
    start_word := 0
    end_word := 2
    word_count := 2 }

/-- A concrete Qdrant search hit. -/
def samplePoint : ScoredPoint :=
  { id := "p1"
    score := mkRat 9 10
    payload_content := "policy text"
    payload_metadata := sampleChunkMeta }

/-- A concrete environment in which ingestion succeeds and the generation
call fails exactly for the prompt built from question `"q1"`, succeeding
for every other prompt. -/
def envGenFail : PipelineEnv :=
  { doc :=
      { download := fun _ => Except.ok [37, 80]
        extract_pdf := fun _ => Except.ok "hello world"
        extract_docx := fun _ => Except.error "not a docx"
        now := 0 }
    chunk_size := 4
    chunk_overlap := 2
    encode := fun ts => Except.ok (ts.map fun _ => [1])
    create_collection := Except.ok ()
    upsert := fun _ => Except.ok ()
    client_search := fun _ _ _ => Except.ok [samplePoint]
    post := fun p =>
      if p = create_prompt "q1" (prepare_context [scored_to_result samplePoint])
      then Except.error (Sum.inr "boom")
      else Except.ok ⟨[" a fine answer "]⟩ }

set_option maxRecDepth 20000 in
/-- Witness for `c3_per_question_isolation`: in `envGenFail` the batch
`["q1", "q2"]` gets an error string exactly in slot 0 and the real
generated answer in slot 1. -/
theorem c3_per_question_isolation_witness :
    (process_query_batch envGenFail "http://example.com/doc.pdf"
        ["q1", "q2"])[0]? =
      some ("I apologize, but I couldn't generate an answer for this question due to a technical error: "
        ++ "Failed to get LLM response: boom") ∧
    (process_query_batch envGenFail "http://example.com/doc.pdf"
        ["q1", "q2"])[1]? = some "a fine answer" := by
  have h := c3_per_question_isolation envGenFail "http://example.com/doc.pdf"
    ["q1", "q2"] () (by rfl)
  have hq1 := h.2.1 "q1" (Sum.inl [1]) [samplePoint]
    "Failed to get LLM response: boom" (by rfl) (by rfl) (by simp) (by rfl)
  have hq2 := h.2.2 "q2" (Sum.inl [1]) [samplePoint] "a fine answer"
    (by rfl) (by rfl) (by simp) (by rfl)
  constructor
  · rw [h.1 0]
    rw [show (["q1", "q2"] : List String)[0]? = some "q1" from rfl]
    rw [Option.map_some']
    rw [hq1]
  · rw [h.1 1]
    rw [show (["q1", "q2"] : List String)[1]? = some "q2" from rfl]
    rw [Option.map_some']
    rw [hq2]

end RagSpec
